import Mathlib

/-!
Verification development for the MA lesson plan evaluator (Framework v3.0).

The repository ships the README, the SQLite schema, the composite scoring
rubric (inside the API test script) and the React frontend.  The backend
Python services (scoring aggregation, retry policy, orchestration) are not
part of the shipped sources, so those components are modelled from the
specification text; each such definition carries a doc comment starting
with `Modelled from the spec:`.  The frontend score rendering is embedded
directly from the shipped `App.jsx` sources.
-/

namespace LessonEval

/-- The four rubric dimensions of Framework v3.0, as listed in the README
weight table and the composite scoring rubric. -/
inductive Dim
  | PBL
  | CRMP
  | CP
  | LDQ
deriving DecidableEq, Repr

/-- Modelled from the spec: the configured dimension weights (backend config
is absent from src; the weights appear in the README weight table and the
composite scoring rubric: PBL 25 percent, CRMP 35 percent, CP 25 percent,
LDQ 15 percent). -/
def weight : Dim → ℚ
  | .PBL  => 25 / 100
  | .CRMP => 35 / 100
  | .CP   => 25 / 100
  | .LDQ  => 15 / 100

/-- Modelled from the spec: DimensionResult (spec section 3), the outcome of
one Dimension Agent invocation. -/
structure DimensionResult where
  dim : Dim
  score : ℚ
  success : Bool
  errorDetail : Option String
  attemptCount : ℕ
  rawText : Option String
deriving DecidableEq, Repr

/-- Modelled from the spec: CompositeScore (spec section 3), derived from the
set of successful DimensionResults. -/
structure CompositeScore where
  dimensionScores : List (Dim × ℚ)
  overall : ℤ
  activeWeights : List (Dim × ℚ)
deriving DecidableEq, Repr

/-- Modelled from the spec: the aggregation error taxonomy entry raised when
zero dimensions succeed (spec section 7). -/
inductive AggError
  | AggregationImpossibleError
deriving DecidableEq, Repr

/-- The successful results of a run. -/
def successes (results : List DimensionResult) : List DimensionResult :=
  results.filter (fun r => r.success)

/-- The sum of configured weights of the successful results. -/
def successWeight (results : List DimensionResult) : ℚ :=
  ((successes results).map (fun r => weight r.dim)).sum

/-- Modelled from the spec: Scoring Aggregator aggregate (spec section 4.5;
the backend evaluation_helpers.py is absent from src).  Take only
success results, let W be the sum of their configured weights, renormalize
each weight by W, and round the weighted sum of scores to the nearest
integer; if W is zero, aggregation is impossible. -/
def aggregate (results : List DimensionResult) : Except AggError CompositeScore :=
  let succ := successes results
  let W := successWeight results
  if W = 0 then
    .error .AggregationImpossibleError
  else
    .ok
      { dimensionScores := succ.map (fun r => (r.dim, r.score))
        overall := round ((succ.map (fun r => weight r.dim / W * r.score)).sum)
        activeWeights := succ.map (fun r => (r.dim, weight r.dim / W)) }

/-- Modelled from the spec: EvaluationRequest (spec section 3). -/
structure EvaluationRequest where
  title : String
  content : String
  gradeLevel : String
  subjectArea : String
deriving DecidableEq, Repr

/-- Modelled from the spec: record status lifecycle, pending to completed or
failed (spec section 3). -/
inductive Status
  | pending
  | completed
  | failed
deriving DecidableEq, Repr

/-- Modelled from the spec: EvaluationRecord, the persisted aggregate of one
evaluation run (spec section 3); the unavailable list pairs each degraded
dimension with the reason surfaced to the caller (spec section 6). -/
structure EvaluationRecord where
  request : EvaluationRequest
  status : Status
  results : List DimensionResult
  composite : Option CompositeScore
  errorMessage : Option String
  unavailable : List (Dim × String)
deriving DecidableEq, Repr

/-- The reason string reported for an unavailable dimension. -/
def reasonOf (r : DimensionResult) : String :=
  r.errorDetail.getD "error"

/-- Modelled from the spec: the Orchestrator completion step (spec section
4.4, steps 5 and 6; backend main.py is absent from src).  Total failure
yields a failed record with no composite and a user visible error; otherwise
the record completes with the composite and the list of unavailable
dimensions. -/
def finalize (req : EvaluationRequest) (results : List DimensionResult) :
    EvaluationRecord :=
  match aggregate results with
  | .error _ =>
      { request := req, status := .failed, results := results
        composite := none
        errorMessage := some "evaluation failed: no dimension could be scored"
        unavailable := (results.filter (fun r => !r.success)).map
          (fun r => (r.dim, reasonOf r)) }
  | .ok c =>
      { request := req, status := .completed, results := results
        composite := some c, errorMessage := none
        unavailable := (results.filter (fun r => !r.success)).map
          (fun r => (r.dim, reasonOf r)) }

/-- An example result used in witnesses: a successful dimension outcome. -/
def okResult (d : Dim) (s : ℚ) : DimensionResult :=
  { dim := d, score := s, success := true, errorDetail := none
    attemptCount := 1, rawText := none }

/-- An example result used in witnesses: a failed dimension outcome. -/
def badResult (d : Dim) (e : String) : DimensionResult :=
  { dim := d, score := 0, success := false, errorDetail := some e
    attemptCount := 1, rawText := none }

/-- The worked example of the spec: A (weight 25 percent, score 80) and B
(weight 35 percent, score 60) succeed while the other two dimensions fail. -/
def c1Example : List DimensionResult :=
  [okResult .PBL 80, okResult .CRMP 60,
   badResult .CP "provider failure", badResult .LDQ "provider failure"]

/-- Modelled from the spec: provider call outcome taxonomy (spec sections 4.1
and 7): a raw response, a retryable transient error, or a fatal error. -/
inductive ProviderOutcome (α : Type)
  | success (v : α)
  | transient (e : String)
  | fatal (e : String)
deriving DecidableEq, Repr

/-- Modelled from the spec: terminal outcome of the Retry Policy (spec
section 4.2): success, RetriesExhaustedError carrying the last underlying
error, or an immediate fatal failure. -/
inductive RetryOutcome (α : Type)
  | success (v : α)
  | exhausted (lastError : String)
  | fatal (e : String)
deriving DecidableEq, Repr

/-- Modelled from the spec: the Retry Policy loop (spec section 4.2; backend
llm_client.py is absent from src).  The call behaviour is a function from the
1-based attempt number to the outcome of that attempt.  On a transient error
the policy sleeps base times 2 to the power (n - 1) seconds and then retries
while the attempt budget lasts; when the budget is spent it converts to
RetriesExhausted carrying the last error; on a fatal error it fails
immediately with no delay.  Returns the number of the last attempt made, the
backoff delays slept, and the terminal outcome. -/
def retryGo {α : Type} (call : ℕ → ProviderOutcome α) (base : ℕ) :
    ℕ → ℕ → ℕ × List ℕ × RetryOutcome α
  | _, 0 => (0, [], .exhausted "no attempt budget")
  | n, fuel + 1 =>
    match call n with
    | .success v => (n, [], .success v)
    | .fatal e => (n, [], .fatal e)
    | .transient e =>
      let d := base * 2 ^ (n - 1)
      if fuel = 0 then
        (n, [d], .exhausted e)
      else
        let rest := retryGo call base (n + 1) fuel
        (rest.1, d :: rest.2.1, rest.2.2)

/-- Modelled from the spec: run the Retry Policy from attempt 1 with the
given maximum attempt budget. -/
def runRetry {α : Type} (call : ℕ → ProviderOutcome α) (maxAttempts base : ℕ) :
    ℕ × List ℕ × RetryOutcome α :=
  retryGo call base 1 maxAttempts

/-- Modelled from the spec: the structured evaluation shape a provider
response is expected to decode to (spec section 4.3). -/
structure ParsedEval where
  score : ℚ
  strengths : List String
  gaps : List String
  improvements : List String
  recommendations : List String
deriving DecidableEq, Repr

/-- Modelled from the spec: a raw provider response, modelled at the level of
its text together with the structured data it decodes to, when it decodes at
all. -/
structure RawResponse where
  text : String
  parsed : Option ParsedEval
deriving DecidableEq, Repr

/-- Modelled from the spec: defensive parsing of a provider response into a
DimensionResult (spec section 4.3; backend code absent from src).  A response
that does not decode, or whose score lies outside 0 to 100, becomes a failed
result that preserves the raw text; it never raises. -/
def parseResult (d : Dim) (attempts : ℕ) (resp : RawResponse) :
    DimensionResult :=
  match resp.parsed with
  | none =>
      { dim := d, score := 0, success := false
        errorDetail := some "ResponseParseError", attemptCount := attempts
        rawText := some resp.text }
  | some p =>
      if p.score < 0 ∨ 100 < p.score then
        { dim := d, score := 0, success := false
          errorDetail := some "ResponseParseError", attemptCount := attempts
          rawText := some resp.text }
      else
        { dim := d, score := p.score, success := true, errorDetail := none
          attemptCount := attempts, rawText := none }

/-- Modelled from the spec: one Dimension Agent invocation (spec section
4.3): invoke the Provider Client under the Retry Policy and parse the
response; every terminal state becomes a DimensionResult. -/
def evaluateDim (d : Dim) (call : ℕ → ProviderOutcome RawResponse)
    (maxAttempts base : ℕ) : DimensionResult :=
  match runRetry call maxAttempts base with
  | (n, _, .success resp) => parseResult d n resp
  | (n, _, .exhausted e) =>
      { dim := d, score := 0, success := false
        errorDetail := some ("RetriesExhaustedError: " ++ e)
        attemptCount := n, rawText := none }
  | (n, _, .fatal e) =>
      { dim := d, score := 0, success := false
        errorDetail := some ("FatalProviderError: " ++ e)
        attemptCount := n, rawText := none }

/-- Modelled from the spec: the Orchestrator fan out (spec section 4.4, step
2): one independent Dimension Agent invocation per enabled dimension. -/
def fanOut (calls : Dim → ℕ → ProviderOutcome RawResponse)
    (maxAttempts base : ℕ) (enabled : List Dim) : List DimensionResult :=
  enabled.map (fun d => evaluateDim d (calls d) maxAttempts base)

/-- Modelled from the spec: the state of one launched Dimension Agent when
the overall evaluation deadline elapses: either already resolved to a
terminal DimensionResult, or still pending (spec section 4.4, step 4). -/
inductive AgentState
  | resolved (r : DimensionResult)
  | pending
deriving DecidableEq, Repr

/-- Modelled from the spec: deadline handling (spec sections 4.4 and 7): a
still pending agent is treated as failed with reason timeout. -/
def settleAtDeadline (d : Dim) : AgentState → DimensionResult
  | .resolved r => r
  | .pending =>
      { dim := d, score := 0, success := false, errorDetail := some "timeout"
        attemptCount := 0, rawText := none }

/-- The results of the agents that resolved before the deadline. -/
def resolvedResults (states : List (Dim × AgentState)) : List DimensionResult :=
  states.filterMap (fun p =>
    match p.2 with
    | .resolved r => some r
    | .pending => none)

/-- Modelled from the spec: the Orchestrator join at the deadline: settle
every launched agent, then finalize the record (spec section 4.4). -/
def runAtDeadline (req : EvaluationRequest)
    (states : List (Dim × AgentState)) : EvaluationRecord :=
  finalize req (states.map (fun p => settleAtDeadline p.1 p.2))

/-- A provider response used in witnesses: parses to a score of 77. -/
def goodResp : RawResponse :=
  { text := "structured"
    parsed := some
      { score := 77, strengths := [], gaps := [], improvements := []
        recommendations := [] } }

/-- A provider response used in witnesses: free text that does not decode. -/
def freeTextResp : RawResponse :=
  { text := "free text instead of JSON", parsed := none }

/-- A provider response used in witnesses: decodes with an out of range
score. -/
def outOfRangeResp : RawResponse :=
  { text := "score 150"
    parsed := some
      { score := 150, strengths := [], gaps := [], improvements := []
        recommendations := [] } }

/-- Call behaviour used in witnesses: the provider call of the PBL dimension
fails fatally, every other dimension succeeds at once. -/
def c5calls : Dim → ℕ → ProviderOutcome RawResponse := fun d _ =>
  match d with
  | .PBL => .fatal "401 unauthorized"
  | _ => .success goodResp

/-- A request used in witnesses. -/
def c6req : EvaluationRequest :=
  { title := "Rocky shore ecology", content := "lesson body"
    gradeLevel := "Year 7", subjectArea := "Science" }

/-- Agent states used in witnesses: three agents resolved (two of them
successfully) and one still pending at the deadline. -/
def c6states : List (Dim × AgentState) :=
  [(Dim.PBL, .resolved (okResult .PBL 80)),
   (Dim.CRMP, .resolved (okResult .CRMP 60)),
   (Dim.CP, .resolved (badResult .CP "RetriesExhaustedError")),
   (Dim.LDQ, .pending)]

/-- A parsed JSON value: the shape held by the TEXT JSON columns of the
evaluations table (the schema stores detailed results as JSON text; the
embedding models those columns at the level of their parsed values). -/
inductive JsonVal
  | str (s : String)
  | num (q : ℚ)
  | jnull
  | arr (xs : List JsonVal)
  | obj (fields : List (String × JsonVal))

/-- The score key of each dimension, as used by the backend payload and the
frontend SCORE_CONFIG in App.jsx. -/
def dimName : Dim → String
  | .PBL => "place_based_learning"
  | .CRMP => "cultural_responsiveness_integrated"
  | .CP => "critical_pedagogy"
  | .LDQ => "lesson_design_quality"

/-- Parse a dimension from its score key. -/
def dimOfName (s : String) : Option Dim :=
  if s = "place_based_learning" then some .PBL
  else if s = "cultural_responsiveness_integrated" then some .CRMP
  else if s = "critical_pedagogy" then some .CP
  else if s = "lesson_design_quality" then some .LDQ
  else none

/-- The status column text of a record status. -/
def statusName : Status → String
  | .pending => "pending"
  | .completed => "completed"
  | .failed => "failed"

/-- Parse a record status from the status column text. -/
def statusOfName (s : String) : Option Status :=
  if s = "pending" then some .pending
  else if s = "completed" then some .completed
  else if s = "failed" then some .failed
  else none

/-- Modelled from the spec: JSON encoding of the degraded dimension list
(each entry names the dimension and the reason it was unavailable). -/
def encodeUnavailable (l : List (Dim × String)) : JsonVal :=
  .arr (l.map (fun p =>
    .obj [("dimension", .str (dimName p.1)), ("reason", .str p.2)]))

/-- Decode one degraded dimension entry. -/
def decodeEntry : JsonVal → Option (Dim × String)
  | .obj [(k1, .str dn), (k2, .str rs)] =>
      if k1 = "dimension" ∧ k2 = "reason" then
        (dimOfName dn).map (fun d => (d, rs))
      else none
  | _ => none

/-- Decode a list of degraded dimension entries; any undecodable entry fails
the whole decode. -/
def decodeList : List JsonVal → Option (List (Dim × String))
  | [] => some []
  | x :: xs =>
    match decodeEntry x, decodeList xs with
    | some p, some t => some (p :: t)
    | _, _ => none

/-- Decode the degraded dimension list. -/
def decodeUnavailable : JsonVal → Option (List (Dim × String))
  | .arr xs => decodeList xs
  | _ => none

/-- The stored score of one dimension inside a composite. -/
def scoreOf (c : CompositeScore) (d : Dim) : Option ℚ :=
  (c.dimensionScores.find? (fun p => decide (p.1 = d))).map Prod.snd

/-- The per dimension score a record persists (the integer score columns are
populated from the composite dimension scores). -/
def recDimScore (rec : EvaluationRecord) (d : Dim) : Option ℚ :=
  rec.composite.bind (fun c => scoreOf c d)

/-- The evaluations table row (schema in src/unnamed/part_000): lesson plan
text columns, the status column, one INTEGER score column per dimension plus
the INTEGER overall score column, the JSON detail column, and the error
message column. -/
structure EvaluationRow where
  lesson_plan_text : String
  lesson_plan_title : String
  grade_level : String
  subject_area : String
  status : String
  place_based_score : Option ℤ
  cultural_score : Option ℤ
  critical_pedagogy_score : Option ℤ
  lesson_design_score : Option ℤ
  overall_score : Option ℤ
  agent_responses : JsonVal
  error_message : Option String

/-- The INTEGER score column of one dimension in a row. -/
def rowDimScore (row : EvaluationRow) : Dim → Option ℤ
  | .PBL => row.place_based_score
  | .CRMP => row.cultural_score
  | .CP => row.critical_pedagogy_score
  | .LDQ => row.lesson_design_score

/-- Modelled from the spec: serialize an EvaluationRecord to the evaluations
table row (the write contract of the Result Store; the backend persistence
code is absent from src).  Scores go to the INTEGER columns, the degraded
dimension list is carried inside the JSON detail column. -/
def toRow (rec : EvaluationRecord) : EvaluationRow :=
  { lesson_plan_text := rec.request.content
    lesson_plan_title := rec.request.title
    grade_level := rec.request.gradeLevel
    subject_area := rec.request.subjectArea
    status := statusName rec.status
    place_based_score := (recDimScore rec .PBL).map (fun q => ⌊q⌋)
    cultural_score := (recDimScore rec .CRMP).map (fun q => ⌊q⌋)
    critical_pedagogy_score := (recDimScore rec .CP).map (fun q => ⌊q⌋)
    lesson_design_score := (recDimScore rec .LDQ).map (fun q => ⌊q⌋)
    overall_score := rec.composite.map (fun c => c.overall)
    agent_responses := encodeUnavailable rec.unavailable
    error_message := rec.errorMessage }

/-- Modelled from the spec: read an EvaluationRecord back from a persisted
row.  The composite is rebuilt from the score columns; the active weights
and the per dimension result details are not persisted by the schema and
are not reconstructed. -/
def fromRow (row : EvaluationRow) : Option EvaluationRecord :=
  match statusOfName row.status, decodeUnavailable row.agent_responses with
  | some st, some unav =>
      some
        { request :=
            { title := row.lesson_plan_title, content := row.lesson_plan_text
              gradeLevel := row.grade_level, subjectArea := row.subject_area }
          status := st
          results := []
          composite :=
            match row.overall_score with
            | none => none
            | some ov =>
                some
                  { dimensionScores := [Dim.PBL, Dim.CRMP, Dim.CP,
                      Dim.LDQ].filterMap (fun d =>
                        (rowDimScore row d).map (fun z => (d, (z : ℚ))))
                    overall := ov
                    activeWeights := [] }
          errorMessage := row.error_message
          unavailable := unav }
  | _, _ => none

/-- A record used in witnesses: two scored dimensions, two degraded ones. -/
def c8rec : EvaluationRecord :=
  { request := c6req
    status := .completed
    results := [okResult .PBL 80, okResult .CRMP 60]
    composite := some
      { dimensionScores := [(.PBL, 80), (.CRMP, 60)]
        overall := 68
        activeWeights := [(.PBL, 5 / 12), (.CRMP, 7 / 12)] }
    errorMessage := none
    unavailable := [(.CP, "RetriesExhaustedError"), (.LDQ, "timeout")] }

/-- A JavaScript value as the frontend score lookup sees it: the undefined
value, the null value, or a number.  A scores object is modelled as a total
function from keys to JSVal, with absent keys mapping to undefined, exactly
as JavaScript property access behaves. -/
inductive JSVal
  | jsUndefined
  | jsNull
  | num (q : ℚ)
deriving DecidableEq, Repr

/-- Embedded from src (App.jsx SCORE_CONFIG): the four dimension card keys,
in display order. -/
def scoreConfigKeys : List String :=
  ["place_based_learning", "cultural_responsiveness_integrated",
   "critical_pedagogy", "lesson_design_quality"]

/-- Embedded from src (App.jsx resolveScore): resolve the score for a config
entry; only the integrated cultural key falls back to the legacy key, and
only when the integrated entry is undefined or null. -/
def resolveScore (configKey : String) (scores : String → JSVal) : JSVal :=
  let score := scores configKey
  if configKey = "cultural_responsiveness_integrated" ∧
      (score = JSVal.jsUndefined ∨ score = JSVal.jsNull) then
    scores "cultural_responsiveness"
  else
    score

/-- Embedded from src (App.jsx renderScoreCards validScores filter): the
JavaScript test score !== undefined && score !== null && score > 0. -/
def isValidScore : JSVal → Bool
  | .num q => decide (0 < q)
  | _ => false

/-- Embedded from src (App.jsx renderScoreCards): JavaScript truthiness of a
score value (a number is truthy exactly when it is nonzero). -/
def truthy : JSVal → Bool
  | .num q => decide (q ≠ 0)
  | _ => false

/-- Embedded from src (App.jsx renderScoreCards): the config keys whose
resolved score passes the validity filter. -/
def validScoreKeys (scores : String → JSVal) : List String :=
  scoreConfigKeys.filter (fun k => isValidScore (resolveScore k scores))

/-- Embedded from src (App.jsx renderScoreCards): the keys of the cards
rendered, in order; the component renders nothing when no dimension card is
valid, and appends the overall card when scores.overall is truthy. -/
def renderScoreCards (scores : String → JSVal) : List String :=
  let valid := validScoreKeys scores
  if valid.isEmpty then []
  else valid ++ (if truthy (scores "overall") then ["overall"] else [])

/-- A scores object used in witnesses: a zero dimension score, one positive
dimension score, a truthy overall, all other keys absent. -/
def c9scores : String → JSVal := fun key =>
  if key = "place_based_learning" then .num 0
  else if key = "critical_pedagogy" then .num 72
  else if key = "overall" then .num 68
  else .jsUndefined

/-- A scores object used in witnesses: the integrated cultural key holds 0
while the legacy key holds 50. -/
def c10scores : String → JSVal := fun key =>
  if key = "cultural_responsiveness_integrated" then .num 0
  else if key = "cultural_responsiveness" then .num 50
  else .jsUndefined

theorem weight_pos (d : Dim) : 0 < weight d := by
  cases d <;> norm_num [weight]

theorem successWeight_pos (l : List DimensionResult)
    (h : ∃ r ∈ l, r.success = true) : 0 < successWeight l := by
  obtain ⟨r, hr, hs⟩ := h
  have hmem : r ∈ successes l := by
    simp [successes, List.mem_filter, hr, hs]
  have hsub : weight r.dim ∈ (successes l).map (fun r => weight r.dim) :=
    List.mem_map_of_mem _ hmem
  have hnonneg : ∀ x ∈ (successes l).map (fun r => weight r.dim), 0 ≤ x := by
    intro x hx
    obtain ⟨s, _, rfl⟩ := List.mem_map.mp hx
    exact (weight_pos s.dim).le
  calc 0 < weight r.dim := weight_pos r.dim
    _ ≤ ((successes l).map (fun r => weight r.dim)).sum :=
      List.single_le_sum hnonneg _ hsub

theorem aggregate_ok_of_success (l : List DimensionResult)
    (h : ∃ r ∈ l, r.success = true) :
    aggregate l = Except.ok
      { dimensionScores := (successes l).map (fun r => (r.dim, r.score))
        overall := round (((successes l).map
          (fun r => weight r.dim / successWeight l * r.score)).sum)
        activeWeights := (successes l).map
          (fun r => (r.dim, weight r.dim / successWeight l)) } := by
  simp [aggregate, ne_of_gt (successWeight_pos l h)]

theorem aggregate_weights_sum (l : List DimensionResult)
    (h : ∃ r ∈ l, r.success = true) :
    ∃ c, aggregate l = Except.ok c ∧ (c.activeWeights.map Prod.snd).sum = 1 := by
  have hne : successWeight l ≠ 0 := ne_of_gt (successWeight_pos l h)
  refine ⟨_, aggregate_ok_of_success l h, ?_⟩
  simp only [List.map_map]
  have hcomp : (Prod.snd ∘ fun r : DimensionResult =>
      (r.dim, weight r.dim / successWeight l))
      = fun r : DimensionResult => weight r.dim * (successWeight l)⁻¹ := by
    funext r
    simp [div_eq_mul_inv]
  rw [hcomp, List.sum_map_mul_right]
  exact mul_inv_cancel₀ hne

theorem finalize_of_success (req : EvaluationRequest)
    (l : List DimensionResult) (h : ∃ r ∈ l, r.success = true) :
    (finalize req l).status = Status.completed ∧
    (finalize req l).composite = (aggregate l).toOption := by
  obtain ⟨c, hc, _⟩ := aggregate_weights_sum l h
  simp [finalize, hc, Except.toOption]

theorem finalize_unavailable (req : EvaluationRequest)
    (l : List DimensionResult) :
    (finalize req l).unavailable = (l.filter (fun r => !r.success)).map
      (fun r => (r.dim, reasonOf r)) := by
  rcases hagg : aggregate l with e | c <;> simp [finalize, hagg]

theorem aggregate_congr (l₁ l₂ : List DimensionResult)
    (h : successes l₁ = successes l₂) : aggregate l₁ = aggregate l₂ := by
  simp [aggregate, successWeight, h]

theorem successes_settle (states : List (Dim × AgentState)) :
    successes (states.map (fun p => settleAtDeadline p.1 p.2))
      = successes (resolvedResults states) := by
  induction states with
  | nil => rfl
  | cons q t ih =>
    obtain ⟨d, st⟩ := q
    cases st with
    | resolved r =>
      have hres : resolvedResults ((d, AgentState.resolved r) :: t)
          = r :: resolvedResults t := by
        simp [resolvedResults]
      have hmap : ((d, AgentState.resolved r) :: t).map
            (fun p => settleAtDeadline p.1 p.2)
          = r :: t.map (fun p => settleAtDeadline p.1 p.2) := by
        simp [settleAtDeadline]
      rw [hres, hmap]
      unfold successes at ih ⊢
      rw [List.filter_cons, List.filter_cons, ih]
    | pending =>
      have hres : resolvedResults ((d, AgentState.pending) :: t)
          = resolvedResults t := by
        simp [resolvedResults]
      have hmap : ((d, AgentState.pending) :: t).map
            (fun p => settleAtDeadline p.1 p.2)
          = settleAtDeadline d AgentState.pending ::
              t.map (fun p => settleAtDeadline p.1 p.2) := by
        simp
      rw [hres, hmap]
      unfold successes at ih ⊢
      rw [List.filter_cons]
      simpa [settleAtDeadline] using ih

/-- C1: with at least one successful result the aggregator keeps only the
success results, renormalizes each configured weight by their sum W, and
rounds the weighted score sum to the nearest integer; on the worked example
(80 at weight 25 percent and 60 at weight 35 percent succeeding) the
renormalized weights are 5/12 and 7/12 (0.4167 and 0.5833 to four decimal
places) and the overall is 68. -/
theorem composite_renormalized_formula (l : List DimensionResult)
    (h : ∃ r ∈ l, r.success = true) :
    (aggregate l = Except.ok
      { dimensionScores := (successes l).map (fun r => (r.dim, r.score))
        overall := round (((successes l).map
          (fun r => weight r.dim / successWeight l * r.score)).sum)
        activeWeights := (successes l).map
          (fun r => (r.dim, weight r.dim / successWeight l)) }) ∧
    aggregate c1Example = Except.ok
      { dimensionScores := [(.PBL, 80), (.CRMP, 60)], overall := 68
        activeWeights := [(.PBL, 5/12), (.CRMP, 7/12)] } ∧
    round ((5 : ℚ) / 12 * 10000) = 4167 ∧ round ((7 : ℚ) / 12 * 10000) = 5833 := by
  refine ⟨aggregate_ok_of_success l h, ?_, ?_, ?_⟩
  · norm_num [aggregate, successes, successWeight, c1Example, okResult,
      badResult, weight, round_eq]
  · norm_num [round_eq]
  · norm_num [round_eq]

/-- Witness for C1 at the worked example input. -/
theorem composite_renormalized_formula_witness :
    aggregate c1Example = Except.ok
      { dimensionScores := [(.PBL, 80), (.CRMP, 60)], overall := 68
        activeWeights := [(.PBL, 5/12), (.CRMP, 7/12)] } :=
  (composite_renormalized_formula c1Example
    ⟨okResult .PBL 80, by simp [c1Example], rfl⟩).2.1

/-- C2: whenever at least one result succeeded, the composite produced by the
aggregator has active weights that sum to exactly 1 (so certainly within any
floating point tolerance), whatever subset of dimensions failed. -/
theorem active_weights_sum_one (l : List DimensionResult)
    (h : ∃ r ∈ l, r.success = true) :
    ∃ c, aggregate l = Except.ok c ∧ (c.activeWeights.map Prod.snd).sum = 1 :=
  aggregate_weights_sum l h

/-- Witness for C2: a run where only one of the four dimensions succeeded. -/
theorem active_weights_sum_one_witness :
    ∃ c, aggregate [okResult .LDQ 90, badResult .PBL "e1", badResult .CRMP "e2",
        badResult .CP "e3"] = Except.ok c ∧
      (c.activeWeights.map Prod.snd).sum = 1 :=
  active_weights_sum_one _ ⟨okResult .LDQ 90, by simp, rfl⟩

/-- C3: when every result failed, aggregation signals
AggregationImpossibleError, and the finalized record has status failed, no
composite score, and a user visible error message. -/
theorem total_failure_no_composite (l : List DimensionResult)
    (h : ∀ r ∈ l, r.success = false) :
    aggregate l = Except.error AggError.AggregationImpossibleError ∧
    ∀ req, (finalize req l).status = Status.failed ∧
      (finalize req l).composite = none ∧
      (finalize req l).errorMessage ≠ none := by
  have hsucc : successes l = [] := by
    simp only [successes, List.filter_eq_nil_iff]
    intro r hr
    simp [h r hr]
  have hagg : aggregate l = Except.error AggError.AggregationImpossibleError := by
    simp [aggregate, successWeight, hsucc]
  refine ⟨hagg, fun req => ?_⟩
  simp [finalize, hagg]

/-- Witness for C3: a run where every dimension failed. -/
theorem total_failure_no_composite_witness :
    aggregate [badResult .PBL "e1", badResult .CRMP "e2"] =
        Except.error AggError.AggregationImpossibleError ∧
    ∀ req, (finalize req [badResult .PBL "e1", badResult .CRMP "e2"]).status =
        Status.failed ∧
      (finalize req [badResult .PBL "e1", badResult .CRMP "e2"]).composite = none ∧
      (finalize req [badResult .PBL "e1", badResult .CRMP "e2"]).errorMessage ≠
        none :=
  total_failure_no_composite _ (by decide)

/-- C4: with max attempts 5 and base delay 15, a call that raises a
transient error on every attempt is tried exactly 5 times with exponential
backoff delays 15, 30, 60, 120, 240 and terminates as RetriesExhausted
carrying the last underlying error, while a call that succeeds on attempt 3
stops after 3 attempts having slept only the delays 15 and 30. -/
theorem retry_policy_backoff {α : Type} (c₁ c₂ : ℕ → ProviderOutcome α)
    (e : ℕ → String) (v : α) (e1 e2 : String)
    (h₁ : ∀ n, c₁ n = .transient (e n))
    (h21 : c₂ 1 = .transient e1) (h22 : c₂ 2 = .transient e2)
    (h23 : c₂ 3 = .success v) :
    runRetry c₁ 5 15 = (5, [15, 30, 60, 120, 240], .exhausted (e 5)) ∧
    runRetry c₂ 5 15 = (3, [15, 30], .success v) := by
  constructor
  · simp [runRetry, retryGo, h₁]
  · simp [runRetry, retryGo, h21, h22, h23]

/-- Witness for C4: an always transient call and a call succeeding on the
third attempt. -/
theorem retry_policy_backoff_witness :
    runRetry (fun _ : ℕ => (ProviderOutcome.transient "rate limited" :
        ProviderOutcome ℕ)) 5 15
      = (5, [15, 30, 60, 120, 240], RetryOutcome.exhausted "rate limited") ∧
    runRetry (fun n : ℕ => if n < 3 then (ProviderOutcome.transient "timeout" :
        ProviderOutcome ℕ) else .success 7) 5 15
      = (3, [15, 30], RetryOutcome.success 7) :=
  retry_policy_backoff _ _ (fun _ => "rate limited") 7 "timeout" "timeout"
    (fun _ => rfl) rfl rfl rfl

/-- C5: a fatal provider error is never retried: the retry trace shows one
attempt and no delay, the dimension surfaces as a failed DimensionResult
with attempt count 1, a sibling dimension whose call succeeds with an in
range score still completes successfully, and the result of any sibling
dimension depends only on its own call behaviour. -/
theorem fatal_no_retry (calls : Dim → ℕ → ProviderOutcome RawResponse)
    (e : String) (resp : RawResponse) (p : ParsedEval)
    (hf : calls Dim.PBL 1 = .fatal e)
    (hs : calls Dim.CRMP 1 = .success resp)
    (hp : resp.parsed = some p) (h0 : 0 ≤ p.score) (h100 : p.score ≤ 100) :
    runRetry (calls Dim.PBL) 5 15 = (1, [], .fatal e) ∧
    (evaluateDim Dim.PBL (calls Dim.PBL) 5 15).success = false ∧
    (evaluateDim Dim.PBL (calls Dim.PBL) 5 15).attemptCount = 1 ∧
    (evaluateDim Dim.CRMP (calls Dim.CRMP) 5 15).success = true ∧
    ∀ calls₂ : Dim → ℕ → ProviderOutcome RawResponse,
      (∀ d, d ≠ Dim.PBL → calls₂ d = calls d) →
      ∀ d, d ≠ Dim.PBL →
        evaluateDim d (calls₂ d) 5 15 = evaluateDim d (calls d) 5 15 := by
  have hnotrange : ¬(p.score < 0 ∨ 100 < p.score) := by
    push_neg
    exact ⟨h0, h100⟩
  refine ⟨?_, ?_, ?_, ?_, ?_⟩
  · simp [runRetry, retryGo, hf]
  · simp [evaluateDim, runRetry, retryGo, hf]
  · simp [evaluateDim, runRetry, retryGo, hf]
  · simp [evaluateDim, runRetry, retryGo, hs, parseResult, hp, hnotrange]
  · intro calls₂ hag d hd
    rw [hag d hd]

/-- Witness for C5 at the concrete call assignment c5calls. -/
theorem fatal_no_retry_witness :
    runRetry (c5calls Dim.PBL) 5 15 = (1, [], .fatal "401 unauthorized") ∧
    (evaluateDim Dim.PBL (c5calls Dim.PBL) 5 15).success = false ∧
    (evaluateDim Dim.PBL (c5calls Dim.PBL) 5 15).attemptCount = 1 ∧
    (evaluateDim Dim.CRMP (c5calls Dim.CRMP) 5 15).success = true ∧
    ∀ calls₂ : Dim → ℕ → ProviderOutcome RawResponse,
      (∀ d, d ≠ Dim.PBL → calls₂ d = c5calls d) →
      ∀ d, d ≠ Dim.PBL →
        evaluateDim d (calls₂ d) 5 15 = evaluateDim d (c5calls d) 5 15 :=
  fatal_no_retry c5calls "401 unauthorized" goodResp
    { score := 77, strengths := [], gaps := [], improvements := []
      recommendations := [] }
    rfl rfl rfl (by norm_num) (by norm_num)

/-- C7: parsing is defensive: an undecodable response yields a failed
DimensionResult preserving the raw text, a decoded score outside 0 to 100
likewise yields a failed result preserving the raw text, every successful
result carries a score within 0 to 100, and a parse failure never aborts the
evaluation: a record finalized from results containing such a failure still
completes whenever some dimension succeeded. -/
theorem parse_defensive (d : Dim) (n : ℕ) (resp : RawResponse) :
    (resp.parsed = none →
      (parseResult d n resp).success = false ∧
      (parseResult d n resp).rawText = some resp.text) ∧
    (∀ p, resp.parsed = some p → (p.score < 0 ∨ 100 < p.score) →
      (parseResult d n resp).success = false ∧
      (parseResult d n resp).rawText = some resp.text) ∧
    ((parseResult d n resp).success = true →
      0 ≤ (parseResult d n resp).score ∧ (parseResult d n resp).score ≤ 100) ∧
    ∀ req l, (∃ r ∈ l, r.success = true) →
      (finalize req (parseResult d n resp :: l)).status = Status.completed := by
  refine ⟨?_, ?_, ?_, ?_⟩
  · intro h
    simp [parseResult, h]
  · intro p hp hout
    simp only [parseResult, hp]
    rw [if_pos hout]
    exact ⟨rfl, rfl⟩
  · rcases hp : resp.parsed with _ | p
    · simp [parseResult, hp]
    · simp only [parseResult, hp]
      by_cases hout : p.score < 0 ∨ 100 < p.score
      · simp [hout]
      · push_neg at hout
        simp [not_or.mpr ⟨not_lt.mpr hout.1, not_lt.mpr hout.2⟩]
        exact hout
  · intro req l hl
    obtain ⟨r, hr, hsucc⟩ := hl
    exact (finalize_of_success req _ ⟨r, List.mem_cons_of_mem _ hr, hsucc⟩).1

/-- Witness for C7 at a free text response and an out of range response. -/
theorem parse_defensive_witness :
    (parseResult Dim.CP 1 freeTextResp).success = false ∧
    (parseResult Dim.CP 1 freeTextResp).rawText = some freeTextResp.text ∧
    (parseResult Dim.LDQ 1 outOfRangeResp).success = false ∧
    (parseResult Dim.LDQ 1 outOfRangeResp).rawText = some outOfRangeResp.text :=
  ⟨((parse_defensive Dim.CP 1 freeTextResp).1 rfl).1,
   ((parse_defensive Dim.CP 1 freeTextResp).1 rfl).2,
   ((parse_defensive Dim.LDQ 1 outOfRangeResp).2.1
      { score := 150, strengths := [], gaps := [], improvements := []
        recommendations := [] } rfl (Or.inr (by norm_num))).1,
   ((parse_defensive Dim.LDQ 1 outOfRangeResp).2.1
      { score := 150, strengths := [], gaps := [], improvements := []
        recommendations := [] } rfl (Or.inr (by norm_num))).2⟩

/-- C6: when the overall deadline elapses with some launched agents still
pending and at least one agent resolved successfully, every pending agent is
settled as a failed timeout, the run returns a completed record, each timed
out dimension is listed as unavailable with reason timeout, and the
composite equals the aggregation of the resolved results alone, whose
renormalized weights sum to 1. -/
theorem deadline_timeout_degrades (req : EvaluationRequest)
    (states : List (Dim × AgentState))
    (h : ∃ q ∈ states, ∃ r, q.2 = AgentState.resolved r ∧ r.success = true) :
    (runAtDeadline req states).status = Status.completed ∧
    (∀ q ∈ states, q.2 = AgentState.pending →
      (q.1, "timeout") ∈ (runAtDeadline req states).unavailable) ∧
    (runAtDeadline req states).composite
      = (aggregate (resolvedResults states)).toOption ∧
    ∃ c, aggregate (resolvedResults states) = Except.ok c ∧
      (c.activeWeights.map Prod.snd).sum = 1 := by
  obtain ⟨q, hq, r, hq2, hrs⟩ := h
  have hrsettled : r ∈ states.map (fun p => settleAtDeadline p.1 p.2) := by
    have hmem : settleAtDeadline q.1 q.2 ∈
        states.map (fun p => settleAtDeadline p.1 p.2) :=
      List.mem_map_of_mem (fun p => settleAtDeadline p.1 p.2) hq
    rw [hq2] at hmem
    simpa [settleAtDeadline] using hmem
  have hsettled : ∃ s ∈ states.map (fun p => settleAtDeadline p.1 p.2),
      s.success = true := ⟨r, hrsettled, hrs⟩
  have hfin := finalize_of_success req _ hsettled
  have hagg : aggregate (states.map (fun p => settleAtDeadline p.1 p.2))
      = aggregate (resolvedResults states) :=
    aggregate_congr _ _ (successes_settle states)
  refine ⟨hfin.1, ?_, ?_, ?_⟩
  · intro q hq hpend
    rw [runAtDeadline, finalize_unavailable]
    apply List.mem_map.mpr
    refine ⟨settleAtDeadline q.1 AgentState.pending, ?_, rfl⟩
    apply List.mem_filter.mpr
    refine ⟨?_, rfl⟩
    have hmem : settleAtDeadline q.1 q.2 ∈
        states.map (fun p => settleAtDeadline p.1 p.2) :=
      List.mem_map_of_mem (fun p => settleAtDeadline p.1 p.2) hq
    rwa [hpend] at hmem
  · rw [runAtDeadline, hfin.2, hagg]
  · refine aggregate_weights_sum _ ⟨r, ?_, hrs⟩
    exact List.mem_filterMap.mpr ⟨q, hq, by rw [hq2]⟩

/-- Witness for C6: three resolved agents, one of which failed, and one
agent still pending at the deadline. -/
theorem deadline_timeout_degrades_witness :
    (runAtDeadline c6req c6states).status = Status.completed ∧
    (∀ q ∈ c6states, q.2 = AgentState.pending →
      (q.1, "timeout") ∈ (runAtDeadline c6req c6states).unavailable) ∧
    (runAtDeadline c6req c6states).composite
      = (aggregate (resolvedResults c6states)).toOption ∧
    ∃ c, aggregate (resolvedResults c6states) = Except.ok c ∧
      (c.activeWeights.map Prod.snd).sum = 1 :=
  deadline_timeout_degrades c6req c6states
    ⟨(Dim.PBL, .resolved (okResult .PBL 80)), by simp [c6states],
      okResult .PBL 80, rfl, rfl⟩

theorem dimOfName_dimName (d : Dim) : dimOfName (dimName d) = some d := by
  cases d <;> rfl

theorem statusOfName_statusName (st : Status) :
    statusOfName (statusName st) = some st := by
  cases st <;> rfl

theorem decodeEntry_encode (p : Dim × String) :
    decodeEntry (.obj [("dimension", .str (dimName p.1)),
      ("reason", .str p.2)]) = some p := by
  obtain ⟨d, s⟩ := p
  simp [decodeEntry, dimOfName_dimName]

theorem decodeUnavailable_encode (l : List (Dim × String)) :
    decodeUnavailable (encodeUnavailable l) = some l := by
  induction l with
  | nil => rfl
  | cons p t ih =>
    simp only [encodeUnavailable, decodeUnavailable] at ih ⊢
    simp [List.map_cons, decodeList, decodeEntry_encode, ih]

theorem scoreOf_reconstruct (f : Dim → Option ℤ) (ov : ℤ) (d : Dim) :
    scoreOf
      { dimensionScores := [Dim.PBL, Dim.CRMP, Dim.CP, Dim.LDQ].filterMap
          (fun d => (f d).map (fun z => (d, (z : ℚ))))
        overall := ov, activeWeights := [] } d
      = (f d).map (fun z => (z : ℚ)) := by
  rcases h1 : f Dim.PBL with _ | z1 <;> rcases h2 : f Dim.CRMP with _ | z2 <;>
    rcases h3 : f Dim.CP with _ | z3 <;> rcases h4 : f Dim.LDQ with _ | z4 <;>
    cases d <;> simp [scoreOf, h1, h2, h3, h4]

/-- C8: serializing an EvaluationRecord whose stored dimension scores are
integral (the schema columns are INTEGER) to the evaluations table row and
reading it back reproduces the per dimension scores, the composite overall
score (including its absence on a failed record), the degraded dimension
list, and the status. -/
theorem record_roundtrip (rec : EvaluationRecord)
    (hint : ∀ d q, recDimScore rec d = some q → ∃ z : ℤ, q = (z : ℚ)) :
    ∃ rec₂, fromRow (toRow rec) = some rec₂ ∧
      (∀ d, recDimScore rec₂ d = recDimScore rec d) ∧
      rec₂.composite.map (fun c => c.overall)
        = rec.composite.map (fun c => c.overall) ∧
      rec₂.unavailable = rec.unavailable ∧
      rec₂.status = rec.status := by
  have hst := statusOfName_statusName rec.status
  have hun := decodeUnavailable_encode rec.unavailable
  have hfloor : ∀ d, (rowDimScore (toRow rec) d).map (fun z => (z : ℚ))
      = recDimScore rec d := by
    intro d
    have hcol : rowDimScore (toRow rec) d = (recDimScore rec d).map
        (fun q => ⌊q⌋) := by
      cases d <;> rfl
    rw [hcol]
    rcases hq : recDimScore rec d with _ | q
    · rfl
    · obtain ⟨z, rfl⟩ := hint d q hq
      simp
  rcases hov : rec.composite with _ | c
  · refine ⟨{ request := rec.request, status := rec.status, results := []
              composite := none, errorMessage := rec.errorMessage
              unavailable := rec.unavailable }, ?_, ?_, ?_, ?_, ?_⟩
    · simp [fromRow, toRow, hst, hun, hov]
    · intro d
      simp [recDimScore, hov]
    · simp [hov]
    · rfl
    · rfl
  · refine ⟨{ request := rec.request, status := rec.status, results := []
              composite := some
                { dimensionScores := [Dim.PBL, Dim.CRMP, Dim.CP,
                    Dim.LDQ].filterMap (fun d =>
                      (rowDimScore (toRow rec) d).map (fun z => (d, (z : ℚ))))
                  overall := c.overall
                  activeWeights := [] }
              errorMessage := rec.errorMessage
              unavailable := rec.unavailable }, ?_, ?_, ?_, ?_, ?_⟩
    · simp [fromRow, toRow, hst, hun, hov]
    · intro d
      calc recDimScore
            { request := rec.request, status := rec.status, results := []
              composite := some
                { dimensionScores := [Dim.PBL, Dim.CRMP, Dim.CP,
                    Dim.LDQ].filterMap (fun d =>
                      (rowDimScore (toRow rec) d).map (fun z => (d, (z : ℚ))))
                  overall := c.overall
                  activeWeights := [] }
              errorMessage := rec.errorMessage
              unavailable := rec.unavailable } d
          = (rowDimScore (toRow rec) d).map (fun z => (z : ℚ)) :=
            scoreOf_reconstruct (rowDimScore (toRow rec)) c.overall d
        _ = recDimScore rec d := hfloor d
    · simp [hov]
    · rfl
    · rfl

/-- Witness for C8 at a concrete completed record with two scored and two
degraded dimensions. -/
theorem record_roundtrip_witness :
    ∃ rec₂, fromRow (toRow c8rec) = some rec₂ ∧
      (∀ d, recDimScore rec₂ d = recDimScore c8rec d) ∧
      rec₂.composite.map (fun c => c.overall)
        = c8rec.composite.map (fun c => c.overall) ∧
      rec₂.unavailable = c8rec.unavailable ∧
      rec₂.status = c8rec.status :=
  record_roundtrip c8rec (by
    intro d q h
    cases d
    · simp [recDimScore, scoreOf, c8rec] at h
      exact ⟨80, by push_cast; linarith⟩
    · simp [recDimScore, scoreOf, c8rec] at h
      exact ⟨60, by push_cast; linarith⟩
    · simp [recDimScore, scoreOf, c8rec] at h
    · simp [recDimScore, scoreOf, c8rec] at h)

/-- C9: a dimension score card is rendered exactly when the resolved score
is a number strictly greater than 0 (so neither undefined, nor null, nor
zero), the Overall Score card is rendered only when scores.overall is
truthy, and a dimension whose resolved score is 0 is not rendered, just as
when the score is missing. -/
theorem score_card_display (scores : String → JSVal) (k : String)
    (hk : k ∈ scoreConfigKeys) :
    (k ∈ renderScoreCards scores ↔
      ∃ q, resolveScore k scores = JSVal.num q ∧ 0 < q) ∧
    ("overall" ∈ renderScoreCards scores → truthy (scores "overall") = true) ∧
    (resolveScore k scores = JSVal.num 0 → k ∉ renderScoreCards scores) ∧
    (resolveScore k scores = JSVal.jsUndefined → k ∉ renderScoreCards scores) := by
  have hkov : k ≠ "overall" := by
    intro hkeq
    rw [hkeq] at hk
    revert hk
    decide
  have hiff : k ∈ renderScoreCards scores ↔
      ∃ q, resolveScore k scores = JSVal.num q ∧ 0 < q := by
    constructor
    · intro hin
      simp only [renderScoreCards] at hin
      by_cases hemp : (validScoreKeys scores).isEmpty = true
      · rw [if_pos hemp] at hin
        exact absurd hin (List.not_mem_nil k)
      · rw [if_neg hemp] at hin
        rcases List.mem_append.mp hin with hv | hrest
        · have hvalid := (List.mem_filter.mp hv).2
          rcases hres : resolveScore k scores with _ | _ | q
          · rw [hres] at hvalid
            exact absurd hvalid (by simp [isValidScore])
          · rw [hres] at hvalid
            exact absurd hvalid (by simp [isValidScore])
          · rw [hres] at hvalid
            refine ⟨q, rfl, ?_⟩
            simpa [isValidScore] using hvalid
        · by_cases htr : truthy (scores "overall") = true
          · rw [if_pos htr] at hrest
            have : k = "overall" := by simpa using hrest
            exact absurd this hkov
          · rw [if_neg htr] at hrest
            exact absurd hrest (List.not_mem_nil k)
    · intro hex
      obtain ⟨q, hres, hq⟩ := hex
      have hkv : k ∈ validScoreKeys scores :=
        List.mem_filter.mpr ⟨hk, by simp [isValidScore, hres, hq]⟩
      have hne : ¬(validScoreKeys scores).isEmpty = true := by
        intro he
        rw [List.isEmpty_iff] at he
        rw [he] at hkv
        exact absurd hkv (List.not_mem_nil k)
      simp only [renderScoreCards]
      rw [if_neg hne]
      exact List.mem_append_left _ hkv
  refine ⟨hiff, ?_, ?_, ?_⟩
  · intro hin
    by_contra hnt
    simp only [renderScoreCards] at hin
    by_cases hemp : (validScoreKeys scores).isEmpty = true
    · rw [if_pos hemp] at hin
      exact absurd hin (List.not_mem_nil _)
    · rw [if_neg hemp, if_neg hnt] at hin
      have hmem : "overall" ∈ validScoreKeys scores := by simpa using hin
      have : ("overall" : String) ∈ scoreConfigKeys :=
        List.mem_of_mem_filter hmem
      revert this
      decide
  · intro h0 hin
    obtain ⟨q, hres, hq⟩ := hiff.mp hin
    rw [h0] at hres
    injection hres with h
    rw [← h] at hq
    exact absurd hq (lt_irrefl 0)
  · intro hund hin
    obtain ⟨q, hres, _⟩ := hiff.mp hin
    rw [hund] at hres
    exact JSVal.noConfusion hres

/-- Witness for C9 at a scores object whose place based entry is the number
0. -/
theorem score_card_display_witness :
    ("place_based_learning" ∈ renderScoreCards c9scores ↔
      ∃ q, resolveScore "place_based_learning" c9scores = JSVal.num q ∧
        0 < q) ∧
    ("overall" ∈ renderScoreCards c9scores →
      truthy (c9scores "overall") = true) ∧
    (resolveScore "place_based_learning" c9scores = JSVal.num 0 →
      "place_based_learning" ∉ renderScoreCards c9scores) ∧
    (resolveScore "place_based_learning" c9scores = JSVal.jsUndefined →
      "place_based_learning" ∉ renderScoreCards c9scores) :=
  score_card_display c9scores "place_based_learning" (by decide)

/-- C10: resolveScore returns the integrated cultural entry whenever it is
neither undefined nor null (in particular a 0 does not trigger the
fallback), falls back to the legacy cultural key exactly when the
integrated entry is undefined or null, and leaves every other key without
any alias. -/
theorem resolve_score_alias (scores : String → JSVal) (k : String) :
    (scores "cultural_responsiveness_integrated" ≠ JSVal.jsUndefined →
      scores "cultural_responsiveness_integrated" ≠ JSVal.jsNull →
      resolveScore "cultural_responsiveness_integrated" scores
        = scores "cultural_responsiveness_integrated") ∧
    ((scores "cultural_responsiveness_integrated" = JSVal.jsUndefined ∨
      scores "cultural_responsiveness_integrated" = JSVal.jsNull) →
      resolveScore "cultural_responsiveness_integrated" scores
        = scores "cultural_responsiveness") ∧
    (scores "cultural_responsiveness_integrated" = JSVal.num 0 →
      resolveScore "cultural_responsiveness_integrated" scores
        = JSVal.num 0) ∧
    (k ≠ "cultural_responsiveness_integrated" →
      resolveScore k scores = scores k) := by
  refine ⟨?_, ?_, ?_, ?_⟩
  · intro hu hn
    simp [resolveScore, hu, hn]
  · intro hor
    simp [resolveScore, hor]
  · intro h0
    simp [resolveScore, h0]
  · intro hne
    simp [resolveScore, hne]

/-- Witness for C10: the integrated entry holds 0 while the legacy entry
holds 50; no fallback happens, and an unrelated key resolves to itself. -/
theorem resolve_score_alias_witness :
    (resolveScore "cultural_responsiveness_integrated" c10scores
      = JSVal.num 0) ∧
    resolveScore "place_based_learning" c10scores
      = c10scores "place_based_learning" :=
  ⟨(resolve_score_alias c10scores "place_based_learning").2.2.1 rfl,
   (resolve_score_alias c10scores "place_based_learning").2.2.2 (by decide)⟩

end LessonEval
